import Mathlib

/-!
Shallow embedding of the ForwardTacotron preprocessing pipeline
(`preprocess.py`): the per-file feature extractor (`Preprocessor._convert_file`
and `Preprocessor.__call__`), the batch-partitioning driver loop, the result
aggregation, and the dataset assembler (sort, seeded shuffle, split,
validation re-sort, persist).

Modelling conventions:
* waveform samples are rationals (`ℚ`); a sample that numpy would render as
  NaN or Infinity (division by a zero peak) is `none` in `List (Option ℚ)`;
* Python exceptions are the `PyError` type and fallible steps return
  `Except PyError _`; a `try/except` block is a `match` on that result;
* external collaborators (audio loading, silence trimming, mel transform,
  pitch tracking, the text cleaner, the three `np.save` writes) are function
  fields of an environment record, so theorems quantify over all of their
  behaviours, including raising.
-/

/-- Python exception kinds relevant to `preprocess.py`. -/
inductive PyError where
  | ioError
  | keyError
  | valueError
  | indexError
  | otherError
  deriving DecidableEq, Repr

/-- A waveform: the finite list of samples loaded from a `.wav` file. -/
abbrev Wave := List ℚ

/-- A waveform after peak normalization: `none` marks a sample that numpy
would have turned into NaN or Infinity (division by a zero peak). -/
abbrev NWave := List (Option ℚ)

/-- A manifest entry `(item_id, mel_len)` as collected into `dataset`. -/
abbrev Entry := String × Nat

/-- Comparison used by Python `list.sort()` on `(item_id, mel_len)` tuples:
lexicographic, item_id first. -/
def entryLe (a b : Entry) : Prop :=
  a.1 < b.1 ∨ (a.1 = b.1 ∧ a.2 ≤ b.2)

instance : DecidableRel entryLe := fun a b =>
  decidable_of_iff (a.1.toList < b.1.toList ∨ (a.1 = b.1 ∧ a.2 ≤ b.2)) (by
    unfold entryLe
    rw [String.lt_iff_toList_lt])

instance : IsTotal Entry entryLe where
  total a b := by
    unfold entryLe
    rcases lt_trichotomy a.1 b.1 with h | h | h
    · exact Or.inl (Or.inl h)
    · rcases Nat.le_total a.2 b.2 with h2 | h2
      · exact Or.inl (Or.inr ⟨h, h2⟩)
      · exact Or.inr (Or.inr ⟨h.symm, h2⟩)
    · exact Or.inr (Or.inl h)

instance : IsTrans Entry entryLe where
  trans a b c hab hbc := by
    unfold entryLe at *
    rcases hab with h1 | ⟨h1, h1n⟩
    · rcases hbc with h2 | ⟨h2, _⟩
      · exact Or.inl (h1.trans h2)
      · exact Or.inl (h2 ▸ h1)
    · rcases hbc with h2 | ⟨h2, h2n⟩
      · exact Or.inl (h1 ▸ h2)
      · exact Or.inr ⟨h1.trans h2, h1n.trans h2n⟩

instance : IsAntisymm Entry entryLe where
  antisymm a b hab hba := by
    unfold entryLe at *
    rcases hab with h1 | ⟨h1, h1n⟩
    · rcases hba with h2 | ⟨h2, _⟩
      · exact absurd (h1.trans h2) (lt_irrefl _)
      · exact absurd h1 (h2 ▸ lt_irrefl _)
    · rcases hba with h2 | ⟨h2, h2n⟩
      · exact absurd h2 (h1 ▸ lt_irrefl _)
      · exact Prod.ext h1 (Nat.le_antisymm h1n h2n)

/-- The `dataset.sort()` step (line 162): Python sorts the list of
`(item_id, mel_len)` tuples lexicographically. -/
def sortEntries (l : List Entry) : List Entry :=
  List.insertionSort entryLe l

/-- Comparison for `val_dataset.sort(key=lambda d: -d[1])` (line 168):
descending mel_len. -/
def valDescLe (a b : Entry) : Prop := b.2 ≤ a.2

instance : DecidableRel valDescLe := by
  intro a b; unfold valDescLe; infer_instance

instance : IsTotal Entry valDescLe where
  total a b := by unfold valDescLe; exact (Nat.le_total b.2 a.2)

instance : IsTrans Entry valDescLe where
  trans a b c hab hbc := by unfold valDescLe at *; exact hbc.trans hab

/-- The validation re-sort by descending mel_len (line 168). -/
def sortValDesc (l : List Entry) : List Entry :=
  List.insertionSort valDescLe l

/-- Modelled from the spec: the pseudo-random number generator behind
`random.Random(42)` is Python standard-library code external to this
repository; the spec fixes only that the shuffle is a deterministic
pseudo-random permutation under the fixed seed 42 (a seeded linear shuffle
is the suggested model), so a linear congruential step stands in for it. -/
def lcgNext (s : Nat) : Nat := (s * 1103515245 + 12345) % 2 ^ 31

/-- One selection step of the seeded shuffle: with fuel bounding recursion
depth, draw an index from the current state, move that element to the front,
and recurse on the remainder with the advanced state. -/
def shuffleAux {α : Type} : Nat → Nat → List α → List α
  | 0, _, l => l
  | _ + 1, _, [] => []
  | fuel + 1, s, a :: rest =>
      let j := s % (rest.length + 1)
      (a :: rest).getD j a :: shuffleAux fuel (lcgNext s) ((a :: rest).eraseIdx j)

/-- Modelled from the spec: `random = Random(42); random.shuffle(dataset)`
(lines 163-164) — a deterministic pseudo-random permutation with seed 42. -/
def shuffle42 {α : Type} (l : List α) : List α :=
  shuffleAux l.length 42 l

example : sortEntries [("b", 2), ("a", 7), ("a", 3)] = [("a", 3), ("a", 7), ("b", 2)] := by decide

example : sortValDesc [("a", 1), ("b", 5), ("c", 3)] = [("b", 5), ("c", 3), ("a", 1)] := by decide

example : shuffle42 [1, 2, 3, 4, 5] ≠ [1, 2, 3, 4, 5] := by decide

/-- Removing the element drawn at index `j` and putting it in front is a
permutation of the original list. -/
lemma perm_pick {α : Type} (d : α) : ∀ (l : List α) (j : Nat), j < l.length →
    l.Perm (l.getD j d :: l.eraseIdx j) := by
  intro l
  induction l with
  | nil => intro j h; simp at h
  | cons a t ih =>
    intro j h
    cases j with
    | zero => simp [List.eraseIdx]
    | succ k =>
      have hk : k < t.length := Nat.lt_of_succ_lt_succ (by simpa using h)
      have h1 : (a :: t).Perm (a :: (t.getD k d :: t.eraseIdx k)) := (ih k hk).cons a
      have h2 : (a :: (t.getD k d :: t.eraseIdx k)).Perm (t.getD k d :: a :: t.eraseIdx k) :=
        List.Perm.swap (t.getD k d) a (t.eraseIdx k)
      simpa [List.getD] using h1.trans h2

/-- The seeded selection shuffle permutes its input, whatever the fuel and
the generator state. -/
lemma shuffleAux_perm {α : Type} : ∀ (fuel s : Nat) (l : List α),
    (shuffleAux fuel s l).Perm l := by
  intro fuel
  induction fuel with
  | zero => intro s l; exact List.Perm.refl l
  | succ n ih =>
    intro s l
    cases l with
    | nil => exact List.Perm.refl []
    | cons a rest =>
      have hj : s % (rest.length + 1) < (a :: rest).length := by
        simpa using Nat.mod_lt s (Nat.succ_pos rest.length)
      have h1 : (shuffleAux (n + 1) s (a :: rest)).Perm
          ((a :: rest).getD (s % (rest.length + 1)) a ::
            (a :: rest).eraseIdx (s % (rest.length + 1))) := by
        simpa [shuffleAux] using
          (ih (lcgNext s) ((a :: rest).eraseIdx (s % (rest.length + 1)))).cons
            ((a :: rest).getD (s % (rest.length + 1)) a)
      exact h1.trans (perm_pick a (a :: rest) _ hj).symm

/-- The seeded shuffle is a permutation. -/
lemma shuffle42_perm {α : Type} (l : List α) : (shuffle42 l).Perm l :=
  shuffleAux_perm l.length 42 l

lemma shuffle42_length {α : Type} (l : List α) : (shuffle42 l).length = l.length :=
  (shuffle42_perm l).length_eq

lemma sortEntries_perm (l : List Entry) : (sortEntries l).Perm l :=
  List.perm_insertionSort entryLe l

lemma sortEntries_length (l : List Entry) : (sortEntries l).length = l.length :=
  (sortEntries_perm l).length_eq

lemma sortValDesc_perm (l : List Entry) : (sortValDesc l).Perm l :=
  List.perm_insertionSort valDescLe l

lemma sortValDesc_length (l : List Entry) : (sortValDesc l).length = l.length :=
  (sortValDesc_perm l).length_eq

/-- The time dimension view of a mel spectrogram: `frames` is `mel.shape[-1]`,
the only part of the array the manifests depend on. -/
structure Mel where
  frames : Nat
  deriving DecidableEq, Repr

/-- A pitch contour as returned by the DIO estimator. -/
abbrev Pitch := List ℚ

/-- The quantized waveform, kept symbolic: each constructor records which
external quantizer `_convert_file` invoked and with which arguments, since
`encode_mu_law` and `float_2_label` live in `utils/dsp.py`, outside this
repository snapshot. -/
inductive Quant where
  | encode_mu_law (y : NWave) (mu : Nat)
  | float_2_label (y : NWave) (bits : Nat)
  deriving DecidableEq

/-- A path to a `.wav` file; `stem` is `path.stem`, the filename without
extension, from which `item_id` is derived. -/
structure WavPath where
  stem : String
  deriving DecidableEq, Repr

/-- The `DataPoint` dataclass of `preprocess.py` (fields `mel`, `quant`,
`pitch` carry the model types above). -/
structure DataPoint where
  item_id : String
  mel_len : Nat
  text : String
  mel : Mel
  quant : Quant
  pitch : Pitch
  deriving DecidableEq

/-- The DSP profile together with its transformation functions. The flags and
scalars mirror the `DSP` fields read by `preprocess.py`; the transforms are
external collaborators (defined in `utils/dsp.py`), so they are arbitrary
function fields returning `Except` — a `.error` models the Python call
raising. -/
structure DSPModel where
  sample_rate : Nat
  hop_length : Nat
  bits : Nat
  mu_law : Bool
  voc_mode : String
  should_trim_long_silences : Bool
  should_trim_start_end_silence : Bool
  should_peak_norm : Bool
  load_wav : WavPath → Except PyError Wave
  trim_long_silences : Wave → Except PyError Wave
  trim_silence : Wave → Except PyError Wave
  wav_to_mel : NWave → Except PyError Mel
  dio : NWave → Except PyError Pitch

/-- Elementwise numpy division `a / p`: division by a zero peak yields a
non-finite sample (NaN for `0/0`, Infinity otherwise), modelled as `none`. -/
def divSample (a p : ℚ) : Option ℚ :=
  if p = 0 then none else some (a / p)

/-- numpy `arr.max()`: raises `ValueError` on an empty array, otherwise the
greatest element. -/
def npMax : List ℚ → Except PyError ℚ
  | [] => .error .valueError
  | a :: rest => .ok (rest.foldl max a)

/-- Lines 66-68 of `preprocess.py`:
`peak = np.abs(y).max()`;
`if self.dsp.should_peak_norm or peak > 1.0: y /= peak`.
There is no zero-peak guard in the source: the division happens whenever the
flag is set or the peak exceeds 1. -/
def peakNormStep (should_peak_norm : Bool) (y : Wave) : Except PyError NWave := do
  let peak ← npMax (y.map (fun a => |a|))
  pure (if should_peak_norm = true ∨ peak > 1 then y.map (fun a => divSample a peak)
        else y.map some)

/-- Lines 72-78 of `preprocess.py`: quantizer selection on `voc_mode`;
any mode other than `RAW` and `MOL` raises `ValueError`. -/
def quantizeStep (voc_mode : String) (mu_law : Bool) (bits : Nat) (y : NWave) :
    Except PyError Quant :=
  if voc_mode = "RAW" then
    .ok (if mu_law then Quant.encode_mu_law y (2 ^ bits) else Quant.float_2_label y bits)
  else if voc_mode = "MOL" then
    .ok (Quant.float_2_label y 16)
  else
    .error .valueError

/-- Python dictionary lookup `text_dict[item_id]`: `KeyError` when absent. -/
def dictLookup (d : List (String × String)) (k : String) : Except PyError String :=
  match d.find? (fun p => p.1 == k) with
  | some p => .ok p.2
  | none => .error .keyError

/-- Lines 62-63: `if self.dsp.should_trim_long_silences: y = trim_long_silences(y)`. -/
def trimLongStep (dsp : DSPModel) (y : Wave) : Except PyError Wave :=
  if dsp.should_trim_long_silences then dsp.trim_long_silences y else pure y

/-- Lines 64-65: `if self.dsp.should_trim_start_end_silence: y = trim_silence(y)`. -/
def trimEdgeStep (dsp : DSPModel) (y : Wave) : Except PyError Wave :=
  if dsp.should_trim_start_end_silence then dsp.trim_silence y else pure y

/-- The `Preprocessor._convert_file` pipeline (lines 60-89): load, conditional
trims, peak normalization, mel, pitch, quantization, text lookup and cleaning,
then the `DataPoint` with `mel_len = mel.shape[-1]`. -/
def convertFile (dsp : DSPModel) (text_dict : List (String × String))
    (cleaner : String → Except PyError String) (path : WavPath) :
    Except PyError DataPoint := do
  let y ← dsp.load_wav path
  let y ← trimLongStep dsp y
  let y ← trimEdgeStep dsp y
  let yn ← peakNormStep dsp.should_peak_norm y
  let mel ← dsp.wav_to_mel yn
  let pitch ← dsp.dio yn
  let quant ← quantizeStep dsp.voc_mode dsp.mu_law dsp.bits yn
  let text ← dictLookup text_dict path.stem
  let ctext ← cleaner text
  pure { item_id := path.stem
         mel_len := mel.frames
         text := ctext
         mel := mel
         quant := quant
         pitch := pitch }

/-- The full environment a `Preprocessor` instance closes over, plus the three
`np.save` collaborators used by `__call__`. -/
structure ExtractEnv where
  dsp : DSPModel
  text_dict : List (String × String)
  cleaner : String → Except PyError String
  save_mel : String → Mel → Except PyError Unit
  save_quant : String → Quant → Except PyError Unit
  save_pitch : String → Pitch → Except PyError Unit

/-- The body of the `try` block in `Preprocessor.__call__` (lines 50-55):
convert, then write the three per-item artifacts, then return the data point. -/
def callBody (env : ExtractEnv) (path : WavPath) : Except PyError DataPoint := do
  let dp ← convertFile env.dsp env.text_dict env.cleaner path
  let _ ← env.save_mel dp.item_id dp.mel
  let _ ← env.save_quant dp.item_id dp.quant
  let _ ← env.save_pitch dp.item_id dp.pitch
  pure dp

/-- The `Preprocessor.__call__` method (lines 49-58): the `try/except Exception` wrapper —
a successful body yields the data point, any raised exception is printed and
`None` is returned. -/
def callExtractor (env : ExtractEnv) (path : WavPath) : Option DataPoint :=
  match callBody env path with
  | .ok dp => some dp
  | .error _ => none

/-- Line 138 of `preprocess.py`:
`batch_amount = math.ceil(len(wav_files) / int(batch_size))` — the ceiling of
the exact rational division. -/
def batchAmount (n bs : Nat) : Nat := ⌈(n : ℚ) / (bs : ℚ)⌉₊

/-- Lines 144-146: `start = x*batch_size; finish = (x+1)*batch_size;
wav_files_batch = wav_files[start:finish]` — the slice is `batch_size`
consecutive files starting at `x * batch_size` (clamped at the end). -/
def fileBatch {α : Type} (files : List α) (bs x : Nat) : List α :=
  (files.drop (x * bs)).take bs

/-- Lines 148-151: the aggregation guard applied to the results the pool
delivers, in order — a result is kept when it is not `None` and its item_id
is (still) a key of the text dictionary, and then it contributes one entry
to `dataset` and one to `cleaned_texts`. -/
def aggregate (text_dict : List (String × String)) :
    List (Option DataPoint) → List Entry × List (String × String)
  | [] => ([], [])
  | none :: rest => aggregate text_dict rest
  | some dp :: rest =>
      let acc := aggregate text_dict rest
      if (text_dict.find? (fun p => p.1 == dp.item_id)).isSome then
        ((dp.item_id, dp.mel_len) :: acc.1, (dp.item_id, dp.text) :: acc.2)
      else acc

/-- The whole driver loop (lines 140-154): map the extractor over every batch
slice in order and aggregate the kept results. The concatenation of the batch
slices is proved equal to the file list in `batchLoop_eq_map` below, so the
loop is stated directly over the batched traversal. -/
def driverRun (env : ExtractEnv) (files : List WavPath) (bs : Nat) :
    List Entry × List (String × String) :=
  aggregate env.text_dict
    (((List.range (batchAmount files.length bs)).flatMap
      (fun x => fileBatch files bs x)).map (callExtractor env))

/-- Python dict insertion `d[k] = v`: replace the value of an existing key,
otherwise append the new pair. -/
def dictInsert (d : List (String × String)) (kv : String × String) :
    List (String × String) :=
  if (d.find? (fun p => p.1 == kv.1)).isSome then
    d.map (fun p => if p.1 == kv.1 then (p.1, kv.2) else p)
  else d ++ [kv]

/-- Line 171: `text_dict = {id: text for id, text in cleaned_texts}` — the
dict comprehension, later pairs overriding earlier ones with the same key. -/
def dictFromPairs (ct : List (String × String)) : List (String × String) :=
  ct.foldl dictInsert []

/-- Element at index 0 of a Python list: `val_dataset[0]` raises `IndexError`
on an empty list. -/
def pyGet0 {α : Type} : List α → Except PyError α
  | [] => .error .indexError
  | a :: _ => .ok a

/-- The split of the shuffled dataset (lines 165-168): `train = dataset[n_val:]`,
`val = dataset[:n_val]` re-sorted by descending mel_len. Python slices clamp,
they never raise. -/
def splitDataset (n_val : Nat) (shuffled : List Entry) : List Entry × List Entry :=
  (shuffled.drop n_val, sortValDesc (shuffled.take n_val))

/-- The dataset assembler tail of `__main__` (lines 162-175): sort, seeded
shuffle, split, validation re-sort, the first-val-sample report (which indexes
`val_dataset[0]`), the cleaned-text dict build, then the three
`pickle_binary` persists, modelled as the returned triple
(text dictionary, train manifest, validation manifest). An `.error` outcome
means the run died before any of the three artifacts was persisted. -/
def assemblerRun (n_val : Nat) (dataset : List Entry)
    (cleaned_texts : List (String × String)) :
    Except PyError (List (String × String) × List Entry × List Entry) := do
  let firstVal ← pyGet0 (splitDataset n_val (shuffle42 (sortEntries dataset))).2
  let _ := firstVal.1
  pure (dictFromPairs cleaned_texts,
        (splitDataset n_val (shuffle42 (sortEntries dataset))).1,
        (splitDataset n_val (shuffle42 (sortEntries dataset))).2)

/-- With a positive batch size the rational-ceiling batch count is the usual
integer ceiling division `(n + bs - 1) / bs`. -/
lemma batchAmount_eq (n bs : Nat) (hbs : 0 < bs) :
    batchAmount n bs = (n + bs - 1) / bs := by
  rcases Nat.eq_zero_or_pos n with hn | hn
  · subst hn
    have h1 : (0 + bs - 1) / bs = 0 := by
      apply Nat.div_eq_of_lt; omega
    rw [h1]
    simp [batchAmount]
  · set q := (n + bs - 1) / bs with hqdef
    have hbsq : (0 : ℚ) < (bs : ℚ) := by exact_mod_cast hbs
    have hq1 : 1 ≤ q := by
      rw [hqdef]
      exact (Nat.le_div_iff_mul_le hbs).mpr (by omega)
    have hub : q * bs ≤ n + bs - 1 := by
      rw [hqdef]; exact Nat.div_mul_le_self _ _
    have hlb : n + bs - 1 < (q + 1) * bs := by
      rw [hqdef]
      exact (Nat.div_lt_iff_lt_mul hbs).mp (Nat.lt_succ_self _)
    have hmul : (q + 1) * bs = q * bs + bs := by ring
    rw [hmul] at hlb
    have hbst : bs ≤ q * bs := by
      calc bs = 1 * bs := (one_mul bs).symm
        _ ≤ q * bs := Nat.mul_le_mul_right bs hq1
    have hn_le : n ≤ q * bs := by omega
    have hlow : (q - 1) * bs < n := by
      have e1 : (q - 1) * bs = q * bs - bs := by rw [Nat.sub_mul, one_mul]
      omega
    have hq0 : q ≠ 0 := by omega
    rw [batchAmount, Nat.ceil_eq_iff hq0]
    refine ⟨?_, ?_⟩
    · rw [Nat.cast_sub hq1, Nat.cast_one, lt_div_iff₀ hbsq]
      have hc : ((q : ℚ) - 1) * (bs : ℚ) = (((q - 1) * bs : ℕ) : ℚ) := by
        rw [Nat.cast_mul, Nat.cast_sub hq1, Nat.cast_one]
      rw [hc]
      exact_mod_cast hlow
    · rw [div_le_iff₀ hbsq]
      exact_mod_cast hn_le

lemma batchAmount_zero (bs : Nat) (hbs : 0 < bs) : batchAmount 0 bs = 0 := by
  rw [batchAmount_eq 0 bs hbs]
  apply Nat.div_eq_of_lt
  omega

/-- Each nonempty file list needs one batch for its first `bs` files and the
ceiling count for the rest. -/
lemma batchAmount_succ (n bs : Nat) (hbs : 0 < bs) (hn : 0 < n) :
    batchAmount n bs = batchAmount (n - bs) bs + 1 := by
  rw [batchAmount_eq n bs hbs, batchAmount_eq (n - bs) bs hbs]
  rcases Nat.le_total n bs with h | h
  · have h0 : n - bs = 0 := by omega
    rw [h0]
    have hR : (0 + bs - 1) / bs = 0 := by
      apply Nat.div_eq_of_lt; omega
    have hL : (n + bs - 1) / bs = 1 := by
      apply Nat.div_eq_of_lt_le <;> omega
    rw [hR, hL]
  · have e : n + bs - 1 = ((n - bs) + bs - 1) + bs := by omega
    rw [e, Nat.add_div_right _ hbs]

/-- Shifting the batch index by one is the same as batching the list with its
first `bs` files removed. -/
lemma fileBatch_succ {α : Type} (files : List α) (bs x : Nat) :
    fileBatch files bs (x + 1) = fileBatch (files.drop bs) bs x := by
  unfold fileBatch
  rw [List.drop_drop]
  congr 2
  ring

/-- The concatenation of the consecutive batch slices rebuilds the file list,
whenever the fuel bounds the list length. -/
lemma flatMap_fileBatch {α : Type} (bs : Nat) (hbs : 0 < bs) :
    ∀ (fuel : Nat) (files : List α), files.length ≤ fuel →
      (List.range (batchAmount files.length bs)).flatMap (fileBatch files bs) = files := by
  intro fuel
  induction fuel with
  | zero =>
    intro files hlen
    have h0 : files = [] := List.eq_nil_of_length_eq_zero (Nat.le_zero.mp hlen)
    subst h0
    simp [batchAmount_zero bs hbs]
  | succ m ih =>
    intro files hlen
    rcases List.eq_nil_or_concat files with h0 | _
    · subst h0
      simp [batchAmount_zero bs hbs]
    · have hpos : 0 < files.length := by
        cases files with
        | nil => simp_all
        | cons a t => simp
      rw [batchAmount_succ files.length bs hbs hpos, List.range_succ_eq_map]
      have hcomp : ∀ x : Nat, fileBatch files bs (Nat.succ x) = fileBatch (files.drop bs) bs x :=
        fun x => fileBatch_succ files bs x
      have hdroplen : (files.drop bs).length = files.length - bs := List.length_drop bs files
      have hih : (List.range (batchAmount (files.length - bs) bs)).flatMap
          (fileBatch (files.drop bs) bs) = files.drop bs := by
        rw [← hdroplen]
        exact ih (files.drop bs) (by rw [hdroplen]; omega)
      have hfun : (fun a => fileBatch files bs (Nat.succ a)) = fileBatch (files.drop bs) bs :=
        funext fun x => hcomp x
      have h0 : fileBatch files bs 0 = files.take bs := by
        unfold fileBatch
        simp
      calc (0 :: (List.range (batchAmount (files.length - bs) bs)).map Nat.succ).flatMap
              (fileBatch files bs)
          = fileBatch files bs 0 ++
              (List.range (batchAmount (files.length - bs) bs)).flatMap
                (fun a => fileBatch files bs (Nat.succ a)) := by
            simp [List.flatMap_map]
        _ = files.take bs ++ files.drop bs := by rw [hfun, h0, hih]
        _ = files := List.take_append_drop bs files

lemma error_bind {ε α β : Type} (e : ε) (f : α → Except ε β) :
    (Except.error e >>= f) = Except.error e := rfl

lemma ok_bind {ε α β : Type} (a : α) (f : α → Except ε β) :
    (Except.ok a >>= f) = f a := rfl

/-- The two aggregation lists march in lockstep: the item_ids of `dataset` and
of `cleaned_texts` are the same list. -/
lemma aggregate_fst_eq (td : List (String × String)) :
    ∀ results : List (Option DataPoint),
      (aggregate td results).1.map Prod.fst = (aggregate td results).2.map Prod.fst := by
  intro results
  induction results with
  | nil => rfl
  | cons r rest ih =>
    cases r with
    | none => simpa [aggregate] using ih
    | some dp =>
      by_cases h : (td.find? (fun p => p.1 == dp.item_id)).isSome
      · simp [aggregate, h, ih]
      · simpa [aggregate, h] using ih

/-- Inserting a pair into the dict model only adds its key to the key set. -/
lemma dictInsert_keys (d : List (String × String)) (kv : String × String) (k : String) :
    k ∈ (dictInsert d kv).map Prod.fst ↔ k ∈ d.map Prod.fst ∨ k = kv.1 := by
  unfold dictInsert
  by_cases h : (d.find? (fun p => p.1 == kv.1)).isSome
  · rw [if_pos h]
    have hm : (d.map (fun p => if p.1 == kv.1 then (p.1, kv.2) else p)).map Prod.fst
        = d.map Prod.fst := by
      rw [List.map_map]
      congr 1
      funext p
      by_cases hp : p.1 = kv.1 <;> simp [hp]
    rw [hm]
    constructor
    · exact Or.inl
    · rintro (hk | hk)
      · exact hk
      · rcases List.find?_isSome.mp h with ⟨p, hpmem, hpeq⟩
        subst hk
        have : p.1 = kv.1 := by simpa using hpeq
        exact this ▸ List.mem_map_of_mem Prod.fst hpmem
  · rw [if_neg h]
    simp [eq_comm]

/-- The key set of the dict-comprehension model is the key set of the pair
list it is built from. -/
lemma dictFromPairs_keys (ct : List (String × String)) (k : String) :
    k ∈ (dictFromPairs ct).map Prod.fst ↔ k ∈ ct.map Prod.fst := by
  suffices h : ∀ (ct : List (String × String)) (d : List (String × String)),
      k ∈ (ct.foldl dictInsert d).map Prod.fst ↔ k ∈ d.map Prod.fst ∨ k ∈ ct.map Prod.fst by
    have := h ct []
    simpa [dictFromPairs] using this
  intro ct
  induction ct with
  | nil => intro d; simp
  | cons a t ih =>
    intro d
    rw [List.foldl_cons, ih (dictInsert d a)]
    rw [dictInsert_keys]
    simp only [List.map_cons, List.mem_cons]
    tauto

/-- A DSP model whose collaborators all succeed: used to instantiate theorems
at concrete inputs. -/
def okDSP : DSPModel where
  sample_rate := 22050
  hop_length := 275
  bits := 9
  mu_law := true
  voc_mode := "RAW"
  should_trim_long_silences := false
  should_trim_start_end_silence := false
  should_peak_norm := false
  load_wav := fun _ => .ok [1/2, 1/4]
  trim_long_silences := fun y => .ok y
  trim_silence := fun y => .ok y
  wav_to_mel := fun _ => .ok ⟨7⟩
  dio := fun _ => .ok [0]

/-- A fully succeeding extraction environment over `okDSP`. -/
def okEnv : ExtractEnv where
  dsp := okDSP
  text_dict := [("a", "hello world")]
  cleaner := fun t => .ok t
  save_mel := fun _ _ => .ok ()
  save_quant := fun _ _ => .ok ()
  save_pitch := fun _ _ => .ok ()

/-- The environment `okEnv` with an unreadable audio file: loading raises `IOError`. -/
def failLoadEnv : ExtractEnv :=
  { okEnv with dsp := { okDSP with load_wav := fun _ => .error .ioError } }

/-- The environment `okEnv` with `voc_mode` set to the invalid value `INVALID`. -/
def invalidModeEnv : ExtractEnv :=
  { okEnv with dsp := { okDSP with voc_mode := "INVALID" } }

/-- C1: the claim requires the zero-peak case to skip the division so that
normalization never produces NaN. The code (lines 66-68) divides whenever the
flag is set or the peak exceeds 1, with no zero-peak guard: on the silent
waveform `[0, 0]` with peak normalization enabled, every sample is divided by
the zero peak and becomes non-finite (the NaN marker `none`), and the result
differs from the untouched waveform the claim demands. -/
theorem peak_norm_zero_peak_produces_nan :
    peakNormStep true [0, 0] = .ok [none, none] ∧
    .ok [none, none] ≠ (Except.ok (([0, 0] : Wave).map some) :
      Except PyError NWave) := by
  constructor
  · rfl
  · intro h
    simp at h

/-- C7: the quantizer selection of `_convert_file` (lines 72-78): RAW with
mu-law enabled applies mu-law encoding with `mu = 2 ^ bits`; RAW without
mu-law applies linear-label quantization at the configured bits; MOL applies
linear-label quantization at 16 bits regardless of the configured bits and of
the mu-law flag. -/
theorem quantizer_selection (bits : Nat) (ml : Bool) (y : NWave) :
    quantizeStep "RAW" true bits y = .ok (Quant.encode_mu_law y (2 ^ bits)) ∧
    quantizeStep "RAW" false bits y = .ok (Quant.float_2_label y bits) ∧
    quantizeStep "MOL" ml bits y = .ok (Quant.float_2_label y 16) :=
  ⟨rfl, rfl, rfl⟩

/-- C5: `Preprocessor.__call__` never lets a pipeline exception reach its
caller: whenever the try-block body (conversion plus the three artifact
writes) raises any exception, the call returns the explicit no-result value
`None` instead. -/
theorem call_contains_exceptions (env : ExtractEnv) (path : WavPath) (e : PyError)
    (h : callBody env path = .error e) : callExtractor env path = none := by
  unfold callExtractor
  rw [h]

/-- Witness for C5: a concrete environment whose audio load raises `IOError`;
the body errors and the call returns `None`. -/
theorem call_contains_exceptions_witness :
    callBody failLoadEnv ⟨"a"⟩ = .error .ioError ∧
    callExtractor failLoadEnv ⟨"a"⟩ = none :=
  ⟨rfl, call_contains_exceptions failLoadEnv ⟨"a"⟩ .ioError rfl⟩

/-- C8: for every file list and positive batch size, the driver runs exactly
`ceil(n / batch_size)` batches — `batchAmount`, the rational-ceiling count,
equals the integer ceiling division — and the concatenation of the
consecutive batch slices `files[x*bs : (x+1)*bs]` is the original file list
in its original order, so no file is processed twice or skipped. -/
theorem batch_partition_exact {α : Type} (files : List α) (bs : Nat) (hbs : 0 < bs) :
    batchAmount files.length bs = (files.length + bs - 1) / bs ∧
    (List.range (batchAmount files.length bs)).flatMap (fileBatch files bs) = files :=
  ⟨batchAmount_eq files.length bs hbs,
   flatMap_fileBatch bs hbs files.length files le_rfl⟩

/-- Witness for C8: three files in batches of two. -/
theorem batch_partition_exact_witness :
    batchAmount ([10, 20, 30] : List Nat).length 2
        = (([10, 20, 30] : List Nat).length + 2 - 1) / 2 ∧
    (List.range (batchAmount ([10, 20, 30] : List Nat).length 2)).flatMap
        (fileBatch [10, 20, 30] 2) = [10, 20, 30] :=
  batch_partition_exact [10, 20, 30] 2 (by decide)

/-- C4: whatever order the workers deliver the extracted `(item_id, mel_len)`
pairs in, the assembler produces identical manifests: the canonical sort by
item_id erases the delivery order, and the seeded shuffle and split are
functions of the sorted list, so any two aggregations that are permutations
of each other assemble to equal train and validation manifests. -/
theorem assembly_order_independent (n_val : Nat) (ds1 ds2 : List Entry)
    (h : ds1.Perm ds2) :
    splitDataset n_val (shuffle42 (sortEntries ds1))
      = splitDataset n_val (shuffle42 (sortEntries ds2)) := by
  have hs : sortEntries ds1 = sortEntries ds2 :=
    List.eq_of_perm_of_sorted
      ((sortEntries_perm ds1).trans (h.trans (sortEntries_perm ds2).symm))
      (List.sorted_insertionSort entryLe ds1)
      (List.sorted_insertionSort entryLe ds2)
  rw [hs]

/-- Witness for C4: two delivery orders of the same two items split equally. -/
theorem assembly_order_independent_witness :
    ([(("b" : String), 2), ("a", 1)] : List Entry).Perm [("a", 1), ("b", 2)] ∧
    splitDataset 1 (shuffle42 (sortEntries [(("b" : String), 2), ("a", 1)]))
      = splitDataset 1 (shuffle42 (sortEntries [("a", 1), ("b", 2)])) :=
  ⟨List.Perm.swap ("a", 1) ("b", 2) [],
   assembly_order_independent 1 _ _ (List.Perm.swap ("a", 1) ("b", 2) [])⟩

/-- C6: with `n_val` at most the number of extracted items, the validation
manifest is the first `n_val` entries of the shuffled list re-sorted by
descending mel_len, the train manifest is the remaining entries, and the two
manifest sizes add up to the number of successfully extracted items. -/
theorem split_shapes (ds : List Entry) (n_val : Nat) (h : n_val ≤ ds.length) :
    (splitDataset n_val (shuffle42 (sortEntries ds))).2
        = sortValDesc ((shuffle42 (sortEntries ds)).take n_val) ∧
    (splitDataset n_val (shuffle42 (sortEntries ds))).1
        = (shuffle42 (sortEntries ds)).drop n_val ∧
    (splitDataset n_val (shuffle42 (sortEntries ds))).1.length +
        (splitDataset n_val (shuffle42 (sortEntries ds))).2.length = ds.length := by
  refine ⟨rfl, rfl, ?_⟩
  unfold splitDataset
  rw [sortValDesc_length, List.length_take, List.length_drop,
    shuffle42_length, sortEntries_length]
  omega

/-- Witness for C6: two items, one of them reserved for validation. -/
theorem split_shapes_witness :
    (1 ≤ ([(("a" : String), 1), ("b", 2)] : List Entry).length) ∧
    ((splitDataset 1 (shuffle42 (sortEntries [(("a" : String), 1), ("b", 2)]))).2
        = sortValDesc ((shuffle42 (sortEntries [(("a" : String), 1), ("b", 2)])).take 1) ∧
     (splitDataset 1 (shuffle42 (sortEntries [(("a" : String), 1), ("b", 2)]))).1
        = (shuffle42 (sortEntries [(("a" : String), 1), ("b", 2)])).drop 1 ∧
     (splitDataset 1 (shuffle42 (sortEntries [(("a" : String), 1), ("b", 2)]))).1.length +
        (splitDataset 1 (shuffle42 (sortEntries [(("a" : String), 1), ("b", 2)]))).2.length
          = ([(("a" : String), 1), ("b", 2)] : List Entry).length) :=
  ⟨by decide, split_shapes [("a", 1), ("b", 2)] 1 (by decide)⟩

/-- With a vocoder mode outside RAW and MOL, `_convert_file` can never
succeed: whichever collaborator outcomes occur, either an earlier step raises
or the quantization step raises `ValueError`. -/
lemma convertFile_invalid_mode (dsp : DSPModel) (td : List (String × String))
    (cl : String → Except PyError String) (p : WavPath)
    (h1 : dsp.voc_mode ≠ "RAW") (h2 : dsp.voc_mode ≠ "MOL") :
    ∀ dp : DataPoint, convertFile dsp td cl p ≠ Except.ok dp := by
  intro dp hok
  unfold convertFile at hok
  have hq : ∀ yn, quantizeStep dsp.voc_mode dsp.mu_law dsp.bits yn
      = .error .valueError := by
    intro yn
    unfold quantizeStep
    rw [if_neg h1, if_neg h2]
  cases hl : dsp.load_wav p with
  | error e => rw [hl, error_bind] at hok; exact Except.noConfusion hok
  | ok y =>
    rw [hl, ok_bind] at hok
    cases ht1 : trimLongStep dsp y with
    | error e => rw [ht1, error_bind] at hok; exact Except.noConfusion hok
    | ok y1 =>
      rw [ht1, ok_bind] at hok
      cases ht2 : trimEdgeStep dsp y1 with
      | error e => rw [ht2, error_bind] at hok; exact Except.noConfusion hok
      | ok y2 =>
        rw [ht2, ok_bind] at hok
        cases hpn : peakNormStep dsp.should_peak_norm y2 with
        | error e => rw [hpn, error_bind] at hok; exact Except.noConfusion hok
        | ok yn =>
          rw [hpn, ok_bind] at hok
          cases hmel : dsp.wav_to_mel yn with
          | error e => rw [hmel, error_bind] at hok; exact Except.noConfusion hok
          | ok mel =>
            rw [hmel, ok_bind] at hok
            cases hdio : dsp.dio yn with
            | error e => rw [hdio, error_bind] at hok; exact Except.noConfusion hok
            | ok pitch =>
              rw [hdio, ok_bind, hq yn, error_bind] at hok
              exact Except.noConfusion hok

/-- C3 (amended): an invalid vocoder mode is not a run-level abort before
dispatch — there is no configuration check in the driver — it surfaces per
item: `_convert_file` raises (`ValueError` at the quantization step, if no
earlier step raised first), `__call__` catches the exception, and the item
yields `None` while the run continues. -/
theorem invalid_mode_contained_per_item (env : ExtractEnv) (path : WavPath)
    (h1 : env.dsp.voc_mode ≠ "RAW") (h2 : env.dsp.voc_mode ≠ "MOL") :
    callExtractor env path = none := by
  unfold callExtractor
  cases hcb : callBody env path with
  | ok dp =>
    exfalso
    unfold callBody at hcb
    cases hcf : convertFile env.dsp env.text_dict env.cleaner path with
    | error e => rw [hcf, error_bind] at hcb; exact Except.noConfusion hcb
    | ok dp0 => exact convertFile_invalid_mode env.dsp env.text_dict env.cleaner path h1 h2 dp0 hcf
  | error e => rfl

/-- Witness for the C3 amended theorem: the concrete invalid-mode environment. -/
theorem invalid_mode_contained_per_item_witness :
    invalidModeEnv.dsp.voc_mode ≠ "RAW" ∧ invalidModeEnv.dsp.voc_mode ≠ "MOL" ∧
    callExtractor invalidModeEnv ⟨"a"⟩ = none :=
  ⟨by decide, by decide,
   invalid_mode_contained_per_item invalidModeEnv ⟨"a"⟩ (by decide) (by decide)⟩

/-- Counterexample to C3 as stated: with `voc_mode = "INVALID"` and every
collaborator otherwise working, extraction work is dispatched and runs — the
per-item body reaches the quantization step and raises `ValueError` — the
item is contained to `None`, and the whole driver run completes normally with
empty aggregation lists instead of aborting before extraction. -/
theorem invalid_mode_no_early_abort :
    callBody invalidModeEnv ⟨"a"⟩ = .error .valueError ∧
    callExtractor invalidModeEnv ⟨"a"⟩ = none ∧
    driverRun invalidModeEnv [⟨"a"⟩] 500 = ([], []) := by
  refine ⟨rfl, rfl, ?_⟩
  have hb : batchAmount ([(⟨"a"⟩ : WavPath)] : List WavPath).length 500 = 1 := by
    rw [batchAmount_eq _ _ (by decide)]
    decide
  unfold driverRun
  rw [hb]
  rfl

/-- A concrete aggregation of five successfully extracted items. -/
def exampleDataset5 : List Entry :=
  [("a", 1), ("b", 2), ("c", 3), ("d", 4), ("e", 5)]

/-- Counterexample to C2 as stated: with `n_val = 10` and only five extracted
items, the run does not fail — the Python slices silently truncate, the train
manifest is empty, the validation manifest holds all five items, and the
assembler completes and persists. -/
theorem n_val_exceeding_total_not_fatal :
    (assemblerRun 10 exampleDataset5 []).toOption.map
        (fun o => (o.2.1.length, o.2.2.length)) = some (0, 5) := by decide

/-- C2 (amended): when `n_val` is at least the number of successfully
extracted items (and at least one item exists), no error of any kind is
raised: the validation set is silently truncated to all available items
(re-sorted by descending mel_len), the train manifest is empty, and the run
completes and persists all three artifacts. -/
theorem n_val_exceeding_total_truncates (n_val : Nat) (ds : List Entry)
    (ct : List (String × String)) (hlen : ds.length ≤ n_val) (hpos : 0 < ds.length) :
    assemblerRun n_val ds ct
      = .ok (dictFromPairs ct, [], sortValDesc (shuffle42 (sortEntries ds))) := by
  have hslen : (shuffle42 (sortEntries ds)).length = ds.length := by
    rw [shuffle42_length, sortEntries_length]
  have htr : (shuffle42 (sortEntries ds)).drop n_val = [] :=
    List.drop_eq_nil_of_le (by omega)
  have htk : (shuffle42 (sortEntries ds)).take n_val = shuffle42 (sortEntries ds) :=
    List.take_of_length_le (by omega)
  have hvne : sortValDesc (shuffle42 (sortEntries ds)) ≠ [] := by
    intro hc
    have hl := sortValDesc_length (shuffle42 (sortEntries ds))
    rw [hc] at hl
    simp at hl
    omega
  unfold assemblerRun splitDataset
  rw [htk, htr]
  cases hv : sortValDesc (shuffle42 (sortEntries ds)) with
  | nil => exact absurd hv hvne
  | cons a t => rfl

/-- Witness for the C2 amended theorem. -/
theorem n_val_exceeding_total_truncates_witness :
    (([(("a" : String), 1)] : List Entry).length ≤ 7 ∧
      0 < ([(("a" : String), 1)] : List Entry).length) ∧
    assemblerRun 7 [(("a" : String), 1)] [("x", "y")]
      = .ok (dictFromPairs [("x", "y")], [],
          sortValDesc (shuffle42 (sortEntries [(("a" : String), 1)]))) :=
  ⟨⟨by decide, by decide⟩,
   n_val_exceeding_total_truncates 7 [("a", 1)] [("x", "y")] (by decide) (by decide)⟩

/-- C10: whenever the validation set comes out empty — `n_val = 0`, or no item
was successfully extracted — the first-val-sample report `val_dataset[0]`
raises `IndexError`, and the run dies before any of the three dataset-level
artifacts is persisted (the `.ok` payload, which carries them, is never
produced). -/
theorem empty_val_set_index_error (n_val : Nat) (ds : List Entry)
    (ct : List (String × String)) (h : n_val = 0 ∨ ds = []) :
    assemblerRun n_val ds ct = .error .indexError := by
  have hval : (splitDataset n_val (shuffle42 (sortEntries ds))).2 = [] := by
    rcases h with h | h
    · subst h
      unfold splitDataset
      simp [sortValDesc]
    · subst h
      unfold splitDataset
      simp [sortEntries, shuffle42, shuffleAux, sortValDesc]
  unfold assemblerRun
  rw [hval]
  rfl

/-- Witness for C10: one extracted item but `n_val = 0`. -/
theorem empty_val_set_index_error_witness :
    assemblerRun 0 [(("a" : String), 5)] [] = .error .indexError :=
  empty_val_set_index_error 0 [("a", 5)] [] (Or.inl rfl)

/-- C9: for every run, the key set of the persisted cleaned-text dictionary
equals the set of item_ids in the train and validation manifests combined:
each accepted extraction result contributes one entry to `dataset` and one to
`cleaned_texts`, and the assembler split only partitions `dataset`. -/
theorem text_dict_keys_match_manifests (td : List (String × String))
    (results : List (Option DataPoint)) (n_val : Nat) (id : String) :
    id ∈ (dictFromPairs (aggregate td results).2).map Prod.fst ↔
      (id ∈ ((splitDataset n_val
          (shuffle42 (sortEntries (aggregate td results).1))).1).map Prod.fst ∨
       id ∈ ((splitDataset n_val
          (shuffle42 (sortEntries (aggregate td results).1))).2).map Prod.fst) := by
  have hperm : (shuffle42 (sortEntries (aggregate td results).1)).Perm
      (aggregate td results).1 :=
    (shuffle42_perm _).trans (sortEntries_perm _)
  have hvalperm : (sortValDesc ((shuffle42 (sortEntries (aggregate td results).1)).take
      n_val)).Perm ((shuffle42 (sortEntries (aggregate td results).1)).take n_val) :=
    sortValDesc_perm _
  rw [dictFromPairs_keys, ← aggregate_fst_eq td results]
  unfold splitDataset
  constructor
  · intro h
    have hs : id ∈ (shuffle42 (sortEntries (aggregate td results).1)).map Prod.fst :=
      ((hperm.map Prod.fst).mem_iff).mpr h
    rw [← List.take_append_drop n_val (shuffle42 (sortEntries (aggregate td results).1)),
      List.map_append, List.mem_append] at hs
    rcases hs with h1 | h2
    · exact Or.inr (((hvalperm.map Prod.fst).mem_iff).mpr h1)
    · exact Or.inl h2
  · rintro (h | h)
    · apply ((hperm.map Prod.fst).mem_iff).mp
      rw [List.map_drop] at h
      exact List.mem_of_mem_drop h
    · have h1 : id ∈ ((shuffle42 (sortEntries (aggregate td results).1)).take
          n_val).map Prod.fst := ((hvalperm.map Prod.fst).mem_iff).mp h
      apply ((hperm.map Prod.fst).mem_iff).mp
      rw [List.map_take] at h1
      exact List.mem_of_mem_take h1
